import Mathlib

set_option linter.unusedSectionVars false

/-!
Shallow embedding of the numerical core of `scripts.js` (immersive solar
system simulation): the body registry, the pairwise gravitational force
evaluator `computeAccelerations`, the velocity-Verlet integrator
`velocityVerletStep`, the per-frame substep controller of `renderFrame`,
the energy diagnostic `computeEnergy`, the default registry construction
`setupDefaultBodies`, and `warmupSimulation`.

Modelling conventions:
* JavaScript numbers are modelled as elements of an arbitrary linear ordered
  field `K` with a floor structure (instantiated at `ℚ` for executable
  witnesses and at `ℝ` for counterexamples); rounding is not modelled.
* `Math.sqrt`, `Math.cos`, `Math.sin`, `Math.PI` are bundled in a `JsMath`
  parameter; theorems instantiate it with the real functions where the
  value of a square root matters.
* Mutable loops over arrays become `List.zipWith` / `List.foldl` over lists;
  the JS double loop `for i; for j>i` over index pairs is flattened into a
  fold over the explicit pair list `pairsList n`.
* The `Body` constructor's optional-argument defaults are resolved at each
  construction site (all call sites in `setupDefaultBodies` pass explicit
  values), and every `Math.random()` draw becomes an explicit stream
  parameter, universally quantified in the theorems.
-/

namespace Solar

/-- The parts of the JS `Math` object used by the simulation core. -/
structure JsMath (K : Type) where
  piv : K
  sqrtf : K → K
  cosf : K → K
  sinf : K → K

variable {K : Type} [LinearOrderedField K] [FloorRing K]

/-- `CONFIG.G = 4 * Math.PI * Math.PI / (365.25 * 365.25)`. -/
def CONFIG_G (piv : K) : K := 4 * piv * piv / (365.25 * 365.25)

/-- `CONFIG.artisticGravityScale = 1.0`. -/
def artisticGravityScale : K := 1.0

/-- `CONFIG.maxSubSteps = 6`. -/
def maxSubSteps : ℤ := 6

/-- `CONFIG.trailLengthDefault = 1600`. -/
def trailLengthDefault : ℕ := 1600

/-- `CONFIG.timeStepPerFrameDefault = 0.65`. -/
def timeStepPerFrameDefault : K := 0.65

/-- A gravitating body (`class Body`): physics state `r`, `v`, `mass`, plus
the rendering attributes stored on the same object. -/
structure Body (K : Type) where
  name : String
  mass : K
  r : K × K
  v : K × K
  color : String
  radiusKm : K
  sideSize : K
  renderRadius : K
  hasRings : Bool
  textureSeed : K
  info : String
deriving DecidableEq

instance : Inhabited (Body K) :=
  ⟨{ name := "", mass := 0, r := (0, 0), v := (0, 0), color := "", radiusKm := 0,
     sideSize := 0, renderRadius := 0, hasRings := false, textureSeed := 0, info := "" }⟩

/-- The physics-relevant fields of the global `sim` object. -/
structure SimState (K : Type) where
  bodies : List (Body K)
  trails : List (List (K × K))
  timeDays : K
  running : Bool
  dt : K
  trailLength : ℕ
  warmupDone : Bool

/-- The ordered list of index pairs `(i, j)` with `i < j < n` visited by the
double loop `for (i) for (j = i+1)` in `computeAccelerations`. -/
def pairsList (n : ℕ) : List (ℕ × ℕ) :=
  ((List.range n).map (fun i =>
    ((List.range n).filter (fun j => i < j)).map (fun j => (i, j)))).flatten

/-- The vector `(ax, ay)` added to `acc[i]` for the pair `(i, j)`:
`aOnI = G * bj.mass * gravityScale / dist2` scaled by the unit direction
`(dx/dist, dy/dist)` with `dx = bj.r.x - bi.r.x`, `dist2 = dx^2+dy^2+1e-12`,
`dist = Math.sqrt(dist2)`. -/
def pairAccI (M : JsMath K) (bodies : List (Body K)) (i j : ℕ) : K × K :=
  let bi := bodies.getD i default
  let bj := bodies.getD j default
  let dx := bj.r.1 - bi.r.1
  let dy := bj.r.2 - bi.r.2
  let dist2 := dx * dx + dy * dy + 1e-12
  let dist := M.sqrtf dist2
  let aOnI := CONFIG_G M.piv * bj.mass * artisticGravityScale / dist2
  (aOnI * (dx / dist), aOnI * (dy / dist))

/-- The vector subtracted from `acc[j]` for the pair `(i, j)` (Newton's third
law branch of the loop): `aOnJ = G * bi.mass * gravityScale / dist2` scaled by
the same direction `(dx/dist, dy/dist)`. -/
def pairAccJ (M : JsMath K) (bodies : List (Body K)) (i j : ℕ) : K × K :=
  let bi := bodies.getD i default
  let bj := bodies.getD j default
  let dx := bj.r.1 - bi.r.1
  let dy := bj.r.2 - bi.r.2
  let dist2 := dx * dx + dy * dy + 1e-12
  let dist := M.sqrtf dist2
  let aOnJ := CONFIG_G M.piv * bi.mass * artisticGravityScale / dist2
  (aOnJ * (dx / dist), aOnJ * (dy / dist))

/-- One iteration of the inner loop body of `computeAccelerations`:
`acc[i] += pairAccI; acc[j] -= pairAccJ` (the second read happens after the
first write, exactly as in the JS array mutation). -/
def accUpd (M : JsMath K) (bodies : List (Body K)) (acc : List (K × K)) (p : ℕ × ℕ) :
    List (K × K) :=
  let acc1 := acc.set p.1 (acc.getD p.1 (0, 0) + pairAccI M bodies p.1 p.2)
  acc1.set p.2 (acc1.getD p.2 (0, 0) - pairAccJ M bodies p.1 p.2)

/-- `computeAccelerations(bodies)`: start from an all-zero acceleration array
of the same length and fold the pairwise update over all pairs `i < j`. -/
def computeAccelerations (M : JsMath K) (bodies : List (Body K)) : List (K × K) :=
  (pairsList bodies.length).foldl (accUpd M bodies) (List.replicate bodies.length (0, 0))

/-- The contribution to body `i` from body `j` as worded in the specification:
`G * massJ * gravityScale / r2` in the direction `d / r`, with
`d = posJ - posI`, `r2 = |d|^2 + ε` (ε = 1e-12) and `r = sqrt(r2)`. -/
def specContrib (M : JsMath K) (bodies : List (Body K)) (i j : ℕ) : K × K :=
  let bi := bodies.getD i default
  let bj := bodies.getD j default
  let d := (bj.r.1 - bi.r.1, bj.r.2 - bi.r.2)
  let r2 := d.1 * d.1 + d.2 * d.2 + 1e-12
  let r := M.sqrtf r2
  let mag := CONFIG_G M.piv * bj.mass * artisticGravityScale / r2
  (mag * (d.1 / r), mag * (d.2 / r))

/-- The net acceleration of body `k` as worded in the specification: the sum of
`specContrib k j` over all `j ≠ k`. -/
def specAccel (M : JsMath K) (bodies : List (Body K)) (k : ℕ) : K × K :=
  ((List.range bodies.length).map
    (fun j => if j = k then 0 else specContrib M bodies k j)).sum

/-- The first loop of `velocityVerletStep`:
`b.r += b.v*dt + 0.5*a0[i]*dt*dt`. -/
def posUpdate (dt : K) (b : Body K) (a : K × K) : Body K :=
  { b with r := (b.r.1 + b.v.1 * dt + 0.5 * a.1 * dt * dt,
                 b.r.2 + b.v.2 * dt + 0.5 * a.2 * dt * dt) }

/-- The second loop of `velocityVerletStep`:
`b.v += 0.5*(a0[i] + a1[i])*dt`, where `a` packs `(a0[i], a1[i])`. -/
def velUpdate (dt : K) (b : Body K) (a : (K × K) × (K × K)) : Body K :=
  { b with v := (b.v.1 + 0.5 * (a.1.1 + a.2.1) * dt,
                 b.v.2 + 0.5 * (a.1.2 + a.2.2) * dt) }

/-- The trail update of `velocityVerletStep`:
`trails[i].push({x, y}); if (trails[i].length > sim.trailLength) trails[i].shift()`. -/
def trailPush (cap : ℕ) (t : List (K × K)) (p : K × K) : List (K × K) :=
  let t1 := t ++ [p]
  if cap < t1.length then t1.tail else t1

/-- `velocityVerletStep(dt)`: accelerations `a0` at the current positions, the
position loop, accelerations `a1` at the updated positions, the velocity loop,
the trail loop, and `sim.timeDays += dt`. -/
def velocityVerletStep (M : JsMath K) (dt : K) (s : SimState K) : SimState K :=
  let a0 := computeAccelerations M s.bodies
  let bodies1 := List.zipWith (posUpdate dt) s.bodies a0
  let a1 := computeAccelerations M bodies1
  let bodies2 := List.zipWith (velUpdate dt) bodies1 (a0.zip a1)
  let trails1 := List.zipWith (fun t (b : Body K) => trailPush s.trailLength t b.r) s.trails bodies2
  { s with bodies := bodies2, trails := trails1, timeDays := s.timeDays + dt }

/-- The sub-step count of `renderFrame`:
`Math.max(1, Math.min(CONFIG.maxSubSteps, Math.ceil(targetDt / 0.9)))`. -/
def subCount (targetDt : K) : ℤ := max 1 (min maxSubSteps ⌈targetDt / 0.9⌉)

/-- The physics part of `renderFrame`: when running, integrate
`sub = subCount(sim.dt)` times with `subDt = sim.dt / sub`; otherwise do
nothing. -/
def renderFramePhysics (M : JsMath K) (s : SimState K) : SimState K :=
  if s.running then
    let targetDt := s.dt
    let sub := subCount targetDt
    let subDt := targetDt / (sub : K)
    (velocityVerletStep M subDt)^[sub.toNat] s
  else s

/-- `computeEnergy()`: the double accumulation loop over `(K, U)`, returning
`(K, U, K + U)`. Pure: it only reads the body list. -/
def computeEnergy (M : JsMath K) (bodies : List (Body K)) : K × K × K :=
  let n := bodies.length
  let KU := (List.range n).foldl (fun (acc : K × K) i =>
    let bi := bodies.getD i default
    let v2 := bi.v.1 * bi.v.1 + bi.v.2 * bi.v.2
    let k1 := acc.1 + 0.5 * bi.mass * v2
    let u1 := ((List.range n).filter (fun j => i < j)).foldl (fun u j =>
      let bj := bodies.getD j default
      let dx := bi.r.1 - bj.r.1
      let dy := bi.r.2 - bj.r.2
      let d := M.sqrtf (dx * dx + dy * dy) + 1e-12
      u - CONFIG_G M.piv * bi.mass * bj.mass / d) acc.2
    (k1, u1)) (0, 0)
  (KU.1, KU.2, KU.1 + KU.2)

/-- Total kinetic energy as worded in the specification:
`K = Σ 0.5 * mass * |v|^2`. -/
def specEnergyK (bodies : List (Body K)) : K :=
  ((List.range bodies.length).map (fun i =>
    let bi := bodies.getD i default
    0.5 * bi.mass * (bi.v.1 * bi.v.1 + bi.v.2 * bi.v.2))).sum

/-- Total potential energy as actually computed by the code:
`U = Σ_{i<j} -G * massI * massJ / (distance(i,j) + 1e-12)`; note the softening
term is added to the distance itself here, not to its square. -/
def codeEnergyU (M : JsMath K) (bodies : List (Body K)) : K :=
  let n := bodies.length
  ((List.range n).map (fun i =>
    (((List.range n).filter (fun j => i < j)).map (fun j =>
      let bi := bodies.getD i default
      let bj := bodies.getD j default
      let dx := bi.r.1 - bj.r.1
      let dy := bi.r.2 - bj.r.2
      let d := M.sqrtf (dx * dx + dy * dy) + 1e-12; -(CONFIG_G M.piv * bi.mass * bj.mass / d))).sum)).sum

/-- Total potential energy as worded in the claim:
`U = Σ_{i<j} -G * massI * massJ / distance(i,j)`, with no softening term. -/
def claimEnergyU (M : JsMath K) (bodies : List (Body K)) : K :=
  let n := bodies.length
  ((List.range n).map (fun i =>
    (((List.range n).filter (fun j => i < j)).map (fun j =>
      let bi := bodies.getD i default
      let bj := bodies.getD j default
      let dx := bi.r.1 - bj.r.1
      let dy := bi.r.2 - bj.r.2
      let d := M.sqrtf (dx * dx + dy * dy); -(CONFIG_G M.piv * bi.mass * bj.mass / d))).sum)).sum

/-- Total momentum `Σ mass * velocity` of a body list, componentwise. -/
def totalMomentum (bodies : List (Body K)) : K × K :=
  ((bodies.map (fun b => b.mass * b.v.1)).sum, (bodies.map (fun b => b.mass * b.v.2)).sum)

/-- The momentum-zeroing tail of `setupDefaultBodies`: sum `p = Σ mass*v` over
all bodies, then set `bodies[0].v = -p / bodies[0].mass`. -/
def zeroMomentum (bodies : List (Body K)) : List (Body K) :=
  match bodies with
  | [] => []
  | b0 :: rest =>
    let px := ((b0 :: rest).map (fun b => b.mass * b.v.1)).sum
    let py := ((b0 :: rest).map (fun b => b.mass * b.v.2)).sum
    { b0 with v := (-px / b0.mass, -py / b0.mass) } :: rest

/-- The Sun body pushed first by `setupDefaultBodies` (constructor defaults
resolved: `sideSize = 1`, `rings = false`). -/
def sunBody (seed : K) : Body K :=
  { name := "Sun", mass := 1.0, r := (0, 0), v := (0, 0), color := "#ffd86b",
    radiusKm := 695700, sideSize := 1, renderRadius := 3.5, hasRings := false,
    textureSeed := seed, info := "The star at the center of the solar system" }

/-- A planet body from a preset row: `angle0 = rnd * PI * 2`, position on the
circle of radius `a`, tangential speed `vYear = 2*PI/sqrt(a)` converted to
AU/day. `rnd` and `seed` are the two `Math.random()` draws involved. -/
def planetBody (M : JsMath K) (nm : String) (a mass : K) (colorv : String)
    (radiusKm rFactor : K) (rings : Bool) (rnd seed : K) : Body K :=
  let angle0 := rnd * M.piv * 2
  let x0 := M.cosf angle0 * a
  let y0 := M.sinf angle0 * a
  let vYear := 2 * M.piv / M.sqrtf a
  { name := nm, mass := mass, r := (x0, y0),
    v := (-(M.sinf angle0) * vYear / 365.25, M.cosf angle0 * vYear / 365.25),
    color := colorv, radiusKm := radiusKm, sideSize := 1, renderRadius := rFactor,
    hasRings := rings, textureSeed := seed, info := nm ++ " — beautiful planet" }

/-- One synthetic asteroid of the `AsteroidBelt` preset (`a = 2.8`,
`rFactor = 0.5`): `angle = rnd1 * PI * 2`, `a += (rnd2 - 0.5) * 0.25`,
`radiusKm = 80 + rnd3 * 120`, `renderRadius = 0.5 * 0.45`, tangential
circular-ish velocity. -/
def asteroidBody (M : JsMath K) (k : ℕ) (rnd1 rnd2 rnd3 seed : K) : Body K :=
  let angle := rnd1 * M.piv * 2
  let radiusVariation := (rnd2 - 0.5) * 0.25
  let a := 2.8 + radiusVariation
  let x := M.cosf angle * a
  let y := M.sinf angle * a
  let vYear := 2 * M.piv / M.sqrtf a
  { name := "Asteroid-" ++ toString k, mass := 3e-12, r := (x, y),
    v := (-(M.sinf angle) * vYear / 365.25, M.cosf angle * vYear / 365.25),
    color := "#9c9c9c", radiusKm := 80 + rnd3 * 120, sideSize := 1,
    renderRadius := 0.5 * 0.45, hasRings := false, textureSeed := seed, info := "" }

/-- The body list built by `setupDefaultBodies`: the Sun, Mercury–Mars, the
120-asteroid ring (the synthetic preset sits between Mars and Jupiter),
Jupiter–Neptune, followed by the momentum-zeroing adjustment of the Sun's
velocity. The streams `prnd`/`pseed` (planets, indexed by preset row) and
`arnd1`–`arnd3`/`aseed` (asteroids, indexed by ring position) stand for the
individual `Math.random()` draws. -/
def setupDefaultBodies (M : JsMath K) (sunSeed : K) (prnd pseed : ℕ → K)
    (arnd1 arnd2 arnd3 aseed : ℕ → K) : List (Body K) :=
  let preRing : List (Body K) :=
    [planetBody M "Mercury" 0.387 1.6601e-7 "#bdbdbd" 2439.7 0.9 false (prnd 0) (pseed 0),
     planetBody M "Venus" 0.723 2.447e-6 "#e4cdb2" 6051.8 1.0 false (prnd 1) (pseed 1),
     planetBody M "Earth" 1.000 3.003e-6 "#5da8ff" 6371.0 1.0 false (prnd 2) (pseed 2),
     planetBody M "Mars" 1.524 3.213e-7 "#ff9a6b" 3389.5 0.95 false (prnd 3) (pseed 3)]
  let ring : List (Body K) :=
    (List.range 120).map (fun k => asteroidBody M k (arnd1 k) (arnd2 k) (arnd3 k) (aseed k))
  let postRing : List (Body K) :=
    [planetBody M "Jupiter" 5.203 0.0009543 "#d9b48f" 69911 1.6 false (prnd 5) (pseed 5),
     planetBody M "Saturn" 9.537 0.0002857 "#f7e6bf" 58232 1.4 true (prnd 6) (pseed 6),
     planetBody M "Uranus" 19.191 4.366e-5 "#d1f4ff" 25362 1.1 false (prnd 7) (pseed 7),
     planetBody M "Neptune" 30.07 5.151e-5 "#6f9fff" 24622 1.1 false (prnd 8) (pseed 8)]
  zeroMomentum (sunBody sunSeed :: (preRing ++ ring ++ postRing))

/-- `sim.trails.map(t => t.slice(-sim.trailLength))` from `warmupSimulation`;
JS `slice(-0)` is `slice(0)`, i.e. the whole array. -/
def sliceLast (cap : ℕ) (t : List (K × K)) : List (K × K) :=
  if cap = 0 then t else t.drop (t.length - cap)

/-- `warmupSimulation()`: 320 integrator steps of 0.6 days, trails capped with
`slice(-trailLength)`, then the clock is reset to zero. -/
def warmupSimulation (M : JsMath K) (s : SimState K) : SimState K :=
  let warmSteps := 320
  let stepSize : K := 0.6
  let s1 := (velocityVerletStep M stepSize)^[warmSteps] s
  { s1 with trails := s1.trails.map (sliceLast s1.trailLength),
            timeDays := 0, warmupDone := true }

/-- Applying the integrator once per entry of a list of sub-step sizes, in
order (the sequence of `velocityVerletStep(subDt)` calls issued since the
clock was last reset). -/
def applySteps (M : JsMath K) (ds : List K) (s : SimState K) : SimState K :=
  ds.foldl (fun st d => velocityVerletStep M d st) s

/-- The insertion history of body `i` along a list of sub-step sizes: the
position recorded for it after each applied integrator step, in simulation
order. -/
def trailHistory (M : JsMath K) (ds : List K) (s : SimState K) (i : ℕ) : List (K × K) :=
  match ds with
  | [] => []
  | d :: rest =>
    ((velocityVerletStep M d s).bodies.getD i default).r
      :: trailHistory M rest (velocityVerletStep M d s) i

/-! ### Concrete rational instances used to exercise the embedding -/

/-- A concrete executable `JsMath` instance over `ℚ` (the parametric theorems
hold for every instance; this one makes the definitions evaluable). -/
def qM : JsMath ℚ := { piv := 1, sqrtf := id, cosf := id, sinf := id }

/-- A concrete test body of mass 1 moving along the x axis. -/
def wBody1 : Body ℚ :=
  { name := "b1", mass := 1, r := (0, 0), v := (1, 0), color := "", radiusKm := 1,
    sideSize := 1, renderRadius := 1, hasRings := false, textureSeed := 0, info := "" }

/-- A concrete test body of mass 2 resting at `(1, 0)`. -/
def wBody2 : Body ℚ :=
  { name := "b2", mass := 2, r := (1, 0), v := (0, 0), color := "", radiusKm := 1,
    sideSize := 1, renderRadius := 1, hasRings := false, textureSeed := 0, info := "" }

/-- A one-body running state with timestep 1 and trail cap 2. -/
def wState1 : SimState ℚ :=
  { bodies := [wBody1], trails := [[]], timeDays := 0, running := true, dt := 1,
    trailLength := 2, warmupDone := false }

/-- A one-body running state whose requested timestep is `0`. -/
def wStateZeroDt : SimState ℚ :=
  { bodies := [wBody1], trails := [[]], timeDays := 0, running := true, dt := 0,
    trailLength := 5, warmupDone := false }

/-- A one-body running state whose requested timestep is `-1` and whose clock
reads 5 days. -/
def wStateNegDt : SimState ℚ :=
  { bodies := [wBody1], trails := [[]], timeDays := 5, running := true, dt := -1,
    trailLength := 5, warmupDone := false }

/-- A one-body running state with `dt = 5.4` (the worked substep example). -/
def wStateFast : SimState ℚ :=
  { bodies := [wBody1], trails := [[]], timeDays := 0, running := true, dt := 5.4,
    trailLength := 2, warmupDone := false }

/-- A concrete test body of mass 1 resting at `(1, 0)` (equal-mass partner of
`wBody1`). -/
def wBody3 : Body ℚ :=
  { name := "b3", mass := 1, r := (1, 0), v := (0, 0), color := "", radiusKm := 1,
    sideSize := 1, renderRadius := 1, hasRings := false, textureSeed := 0, info := "" }

/-- Squared Euclidean magnitude of a 2-vector (used to compare acceleration
magnitudes). -/
def magSq (p : K × K) : K := p.1 * p.1 + p.2 * p.2

/-- A real test body of mass 1 at the origin, at rest. -/
def rBody1 : Body ℝ :=
  { name := "r1", mass := 1, r := (0, 0), v := (0, 0), color := "", radiusKm := 1,
    sideSize := 1, renderRadius := 1, hasRings := false, textureSeed := 0, info := "" }

/-- A real test body of mass 2 at `(1, 0)`, at rest. -/
def rBody2 : Body ℝ :=
  { name := "r2", mass := 2, r := (1, 0), v := (0, 0), color := "", radiusKm := 1,
    sideSize := 1, renderRadius := 1, hasRings := false, textureSeed := 0, info := "" }

/-! ### General list lemmas -/

theorem foldl_add_sum {α β : Type} [AddCommMonoid α] (g : β → α) (l : List β) (a0 : α) :
    l.foldl (fun a x => a + g x) a0 = a0 + (l.map g).sum := by
  induction l generalizing a0 with
  | nil => simp
  | cons x xs ih => simp [List.foldl_cons, ih, add_assoc]

theorem sum_map_add' {α β : Type} [AddCommMonoid α] (f g : β → α) (l : List β) :
    (l.map fun x => f x + g x).sum = (l.map f).sum + (l.map g).sum := by
  induction l with
  | nil => simp
  | cons x xs ih =>
    simp only [List.map_cons, List.sum_cons, ih]
    abel

theorem sum_map_ite_eq {α : Type} [AddCommMonoid α] (l : List ℕ) (hnd : l.Nodup) (k : ℕ)
    (f : ℕ → α) :
    (l.map fun x => if x = k then f x else 0).sum = if k ∈ l then f k else 0 := by
  induction l with
  | nil => simp
  | cons x xs ih =>
    rcases List.nodup_cons.mp hnd with ⟨hx, hxs⟩
    by_cases hxk : x = k
    · subst hxk
      simp [ih hxs, hx]
    · simp [hxk, ih hxs, Ne.symm hxk]

theorem sum_map_ite_filter {α β : Type} [AddCommMonoid α] (l : List β) (p : β → Prop)
    [DecidablePred p] (f : β → α) :
    (l.map fun x => if p x then f x else 0).sum
      = ((l.filter (fun b => decide (p b))).map f).sum := by
  induction l with
  | nil => simp
  | cons x xs ih =>
    by_cases hx : p x <;> simp [List.filter_cons, hx, ih]

theorem getD_set_self {α : Type} (l : List α) (i : ℕ) (h : i < l.length) (v d : α) :
    (l.set i v).getD i d = v := by
  simp [List.getD_eq_getElem?_getD, List.getElem?_set_self h]

theorem getD_set_ne {α : Type} (l : List α) (i j : ℕ) (h : j ≠ i) (v d : α) :
    (l.set i v).getD j d = l.getD j d := by
  simp [List.getD_eq_getElem?_getD, List.getElem?_set_ne (Ne.symm h)]

theorem zipWith_const_left {α β γ : Type} (f : α → γ) (l1 : List α) (l2 : List β)
    (h : l1.length ≤ l2.length) :
    List.zipWith (fun a _ => f a) l1 l2 = l1.map f := by
  induction l1 generalizing l2 with
  | nil => simp
  | cons a as ih =>
    cases l2 with
    | nil => simp at h
    | cons b bs =>
      simp only [List.zipWith_cons_cons, List.map_cons, List.cons.injEq, true_and]
      exact ih bs (by simpa using h)

/-! ### Force evaluator: the pair loop computes the per-body sums -/

theorem accUpd_length (M : JsMath K) (bodies : List (Body K)) (acc : List (K × K))
    (p : ℕ × ℕ) : (accUpd M bodies acc p).length = acc.length := by
  simp [accUpd]

theorem foldl_accUpd_length (M : JsMath K) (bodies : List (Body K)) (ps : List (ℕ × ℕ))
    (acc : List (K × K)) : (ps.foldl (accUpd M bodies) acc).length = acc.length := by
  induction ps generalizing acc with
  | nil => rfl
  | cons p ps ih => simp [List.foldl_cons, ih, accUpd_length]

theorem foldl_accUpd_getD (M : JsMath K) (bodies : List (Body K)) (ps : List (ℕ × ℕ))
    (acc : List (K × K)) (k : ℕ)
    (hb : ∀ p ∈ ps, p.1 < acc.length ∧ p.2 < acc.length ∧ p.1 ≠ p.2) :
    (ps.foldl (accUpd M bodies) acc).getD k (0, 0)
      = acc.getD k (0, 0) + (ps.map (fun p =>
          (if p.1 = k then pairAccI M bodies p.1 p.2 else 0)
          + (if p.2 = k then -(pairAccJ M bodies p.1 p.2) else 0))).sum := by
  induction ps generalizing acc with
  | nil => simp
  | cons p ps ih =>
    obtain ⟨h1, h2, hne⟩ := hb p (List.mem_cons_self p ps)
    have hb' : ∀ q ∈ ps, q.1 < (accUpd M bodies acc p).length ∧
        q.2 < (accUpd M bodies acc p).length ∧ q.1 ≠ q.2 := by
      intro q hq
      rw [accUpd_length]
      exact hb q (List.mem_cons_of_mem p hq)
    rw [List.foldl_cons, ih (accUpd M bodies acc p) hb']
    have hgd : (accUpd M bodies acc p).getD k (0, 0)
        = acc.getD k (0, 0) + ((if p.1 = k then pairAccI M bodies p.1 p.2 else 0)
          + (if p.2 = k then -(pairAccJ M bodies p.1 p.2) else 0)) := by
      unfold accUpd
      by_cases hk1 : p.1 = k
      · subst hk1
        have hk2 : p.2 ≠ p.1 := Ne.symm hne
        rw [getD_set_ne _ _ _ (Ne.symm hk2), getD_set_self _ _ h1]
        simp [hk2]
      · by_cases hk2 : p.2 = k
        · subst hk2
          rw [getD_set_self _ _ (by simpa using h2), getD_set_ne _ _ _ (Ne.symm hne)]
          simp [hk1, sub_eq_add_neg]
        · rw [getD_set_ne _ _ _ (fun h => hk2 h.symm), getD_set_ne _ _ _ (fun h => hk1 h.symm)]
          simp [hk1, hk2]
    rw [hgd, List.map_cons, List.sum_cons]
    abel

theorem pairAccI_eq_specContrib (M : JsMath K) (bodies : List (Body K)) (i j : ℕ) :
    pairAccI M bodies i j = specContrib M bodies i j := rfl

theorem pairAccJ_eq_neg_specContrib (M : JsMath K) (bodies : List (Body K)) (i j : ℕ) :
    -(pairAccJ M bodies i j) = specContrib M bodies j i := by
  unfold pairAccJ specContrib
  have harg : ((bodies.getD j default).r.1 - (bodies.getD i default).r.1)
        * ((bodies.getD j default).r.1 - (bodies.getD i default).r.1)
      + ((bodies.getD j default).r.2 - (bodies.getD i default).r.2)
        * ((bodies.getD j default).r.2 - (bodies.getD i default).r.2) + 1e-12
      = ((bodies.getD i default).r.1 - (bodies.getD j default).r.1)
        * ((bodies.getD i default).r.1 - (bodies.getD j default).r.1)
      + ((bodies.getD i default).r.2 - (bodies.getD j default).r.2)
        * ((bodies.getD i default).r.2 - (bodies.getD j default).r.2) + 1e-12 := by
    ring
  simp only [harg, Prod.neg_mk, Prod.mk.injEq]
  constructor <;> ring

theorem computeAccelerations_length (M : JsMath K) (bodies : List (Body K)) :
    (computeAccelerations M bodies).length = bodies.length := by
  unfold computeAccelerations
  rw [foldl_accUpd_length]
  simp

theorem mem_pairsList {p : ℕ × ℕ} {n : ℕ} (hp : p ∈ pairsList n) :
    p.1 < p.2 ∧ p.2 < n := by
  unfold pairsList at hp
  simp only [List.mem_flatten, List.mem_map, List.mem_filter, List.mem_range] at hp
  obtain ⟨l, ⟨i, hi, rfl⟩, hpl⟩ := hp
  simp only [List.mem_map, List.mem_filter, List.mem_range] at hpl
  obtain ⟨j, ⟨hj, hij⟩, rfl⟩ := hpl
  exact ⟨by simpa using hij, hj⟩

theorem sum_split_range {α : Type} [AddCommMonoid α] (f : ℕ → α) (k n : ℕ) :
    (((List.range n).filter (fun j => k < j)).map f).sum
      + (((List.range n).filter (fun j => j < k)).map f).sum
    = ((List.range n).map (fun j => if j = k then 0 else f j)).sum := by
  induction n with
  | zero => simp
  | succ n ih =>
    rw [List.range_succ]
    rcases lt_trichotomy k n with hlt | heq | hgt
    · have h1 : ¬ (n < k) := by omega
      have h2 : n ≠ k := by omega
      simp only [List.filter_append, List.map_append, List.sum_append, List.filter_cons,
        List.filter_nil, hlt, h1, h2, decide_eq_true_eq, if_true, if_false, ite_true,
        ite_false, List.map_cons, List.map_nil, List.sum_cons, List.sum_nil]
      rw [← ih]
      abel
    · subst heq
      simp only [List.filter_append, List.map_append, List.sum_append, List.filter_cons,
        List.filter_nil, lt_irrefl, decide_eq_true_eq, ite_false, if_pos rfl, List.map_cons,
        List.map_nil, List.sum_cons, List.sum_nil]
      rw [← ih]
      abel
    · have h1 : ¬ (k < n) := by omega
      have h2 : n ≠ k := by omega
      simp only [List.filter_append, List.map_append, List.sum_append, List.filter_cons,
        List.filter_nil, h1, hgt, h2, decide_eq_true_eq, if_true, if_false, ite_true,
        ite_false, List.map_cons, List.map_nil, List.sum_cons, List.sum_nil]
      rw [← ih]
      abel

theorem sum_map_flatten_map {α β γ : Type} [AddCommMonoid γ] (l : List α) (f : α → List β)
    (g : β → γ) :
    ((l.map f).flatten.map g).sum = (l.map (fun a => ((f a).map g).sum)).sum := by
  induction l with
  | nil => simp
  | cons a as ih => simp [List.map_append, List.sum_append, Function.comp_def, ih]

theorem computeAccelerations_getD (M : JsMath K) (bodies : List (Body K)) (k : ℕ)
    (hk : k < bodies.length) :
    (computeAccelerations M bodies).getD k (0, 0) = specAccel M bodies k := by
  unfold computeAccelerations
  rw [foldl_accUpd_getD M bodies _ _ k (by
    intro p hp
    obtain ⟨h12, h2⟩ := mem_pairsList hp
    simp only [List.length_replicate]
    omega)]
  have hrep : (List.replicate bodies.length ((0 : K), (0 : K))).getD k (0, 0) = (0, 0) := by
    simp [List.getD_eq_getElem?_getD, List.getElem?_replicate, hk]
  rw [hrep, show ((0 : K), (0 : K)) = (0 : K × K) from rfl, zero_add]
  set n := bodies.length with hn
  unfold pairsList
  rw [sum_map_flatten_map]
  have hblock : ∀ i ∈ List.range n,
      ((((List.range n).filter (fun j => i < j)).map (fun j => (i, j))).map
        (fun p : ℕ × ℕ =>
          (if p.1 = k then pairAccI M bodies p.1 p.2 else 0)
          + (if p.2 = k then -(pairAccJ M bodies p.1 p.2) else 0))).sum
      = (if i = k then
          ((((List.range n).filter (fun j => k < j)).map
            (fun j => specContrib M bodies k j)).sum) else 0)
        + (if i < k then specContrib M bodies k i else 0) := by
    intro i _
    rw [List.map_map]
    have hcomp : ((fun p : ℕ × ℕ =>
          (if p.1 = k then pairAccI M bodies p.1 p.2 else 0)
          + (if p.2 = k then -(pairAccJ M bodies p.1 p.2) else 0)) ∘ fun j => (i, j))
        = fun j => (if i = k then pairAccI M bodies i j else 0)
          + (if j = k then -(pairAccJ M bodies i j) else 0) := rfl
    rw [hcomp, sum_map_add']
    congr 1
    · by_cases hik : i = k
      · subst hik
        simp only [eq_self_iff_true, if_true]
        rfl
      · simp [hik]
    · rw [sum_map_ite_eq _ (List.Nodup.filter _ (List.nodup_range n)) k
        (fun j => -(pairAccJ M bodies i j))]
      by_cases hik : i < k
      · rw [if_pos (by simp [List.mem_filter, List.mem_range]; omega), if_pos hik]
        exact pairAccJ_eq_neg_specContrib M bodies i k
      · rw [if_neg (by simp [List.mem_filter, List.mem_range]; omega), if_neg hik]
  rw [List.map_congr_left hblock, sum_map_add']
  rw [sum_map_ite_eq _ (List.nodup_range n) k
    (fun _ => (((List.range n).filter (fun j => k < j)).map
      (fun j => specContrib M bodies k j)).sum)]
  rw [if_pos (List.mem_range.mpr (hn ▸ hk))]
  rw [sum_map_ite_filter (List.range n) (fun i => i < k)
    (fun i => specContrib M bodies k i)]
  exact sum_split_range (fun j => specContrib M bodies k j) k n

/-! ### Claim theorems -/

/-- C1: for every `dt > 0`, one `velocityVerletStep` follows the
velocity-Verlet ordering: accelerations `a0` are evaluated at the current
positions, every position becomes `pos + v*dt + 0.5*a0*dt²`, accelerations
`a1` are evaluated at the *updated* positions, and every velocity becomes
`v + 0.5*(a0 + a1)*dt` — the average of the pre- and post-step accelerations,
not `a0` or `a1` alone. -/
theorem C1_velocity_verlet_ordering (M : JsMath K) (dt : K) (s : SimState K) (hdt : 0 < dt)
    (i : ℕ) (hi : i < s.bodies.length) :
    ((velocityVerletStep M dt s).bodies.getD i default).r
      = ((s.bodies.getD i default).r.1 + (s.bodies.getD i default).v.1 * dt
           + 0.5 * ((computeAccelerations M s.bodies).getD i (0, 0)).1 * dt * dt,
         (s.bodies.getD i default).r.2 + (s.bodies.getD i default).v.2 * dt
           + 0.5 * ((computeAccelerations M s.bodies).getD i (0, 0)).2 * dt * dt)
    ∧ ((velocityVerletStep M dt s).bodies.getD i default).v
      = ((s.bodies.getD i default).v.1
           + 0.5 * (((computeAccelerations M s.bodies).getD i (0, 0)).1
             + ((computeAccelerations M (List.zipWith (posUpdate dt) s.bodies
                  (computeAccelerations M s.bodies))).getD i (0, 0)).1) * dt,
         (s.bodies.getD i default).v.2
           + 0.5 * (((computeAccelerations M s.bodies).getD i (0, 0)).2
             + ((computeAccelerations M (List.zipWith (posUpdate dt) s.bodies
                  (computeAccelerations M s.bodies))).getD i (0, 0)).2) * dt) := by
  have la0 := computeAccelerations_length M s.bodies
  have lb1 : (List.zipWith (posUpdate dt) s.bodies (computeAccelerations M s.bodies)).length
      = s.bodies.length := by
    simp [List.length_zipWith, la0]
  have la1 := computeAccelerations_length M
    (List.zipWith (posUpdate dt) s.bodies (computeAccelerations M s.bodies))
  have hb2 : (velocityVerletStep M dt s).bodies
      = List.zipWith (velUpdate dt)
          (List.zipWith (posUpdate dt) s.bodies (computeAccelerations M s.bodies))
          ((computeAccelerations M s.bodies).zip
            (computeAccelerations M (List.zipWith (posUpdate dt) s.bodies
              (computeAccelerations M s.bodies)))) := rfl
  have hzl : ((computeAccelerations M s.bodies).zip
      (computeAccelerations M (List.zipWith (posUpdate dt) s.bodies
        (computeAccelerations M s.bodies)))).length = s.bodies.length := by
    simp [List.length_zip, la0, la1, lb1]
  have hl2 : (velocityVerletStep M dt s).bodies.length = s.bodies.length := by
    rw [hb2]
    simp [List.length_zipWith, lb1, hzl]
  have hi2 : i < (velocityVerletStep M dt s).bodies.length := by omega
  have hia0 : i < (computeAccelerations M s.bodies).length := by omega
  have hia1 : i < (computeAccelerations M (List.zipWith (posUpdate dt) s.bodies
      (computeAccelerations M s.bodies))).length := by omega
  rw [List.getD_eq_getElem _ _ hi2, List.getD_eq_getElem _ _ hia0,
    List.getD_eq_getElem _ _ hia1, List.getD_eq_getElem _ _ hi]
  constructor
  · simp only [velocityVerletStep, List.getElem_zipWith, List.getElem_zip, velUpdate,
      posUpdate]
  · simp only [velocityVerletStep, List.getElem_zipWith, List.getElem_zip, velUpdate,
      posUpdate]

/-- `computeAccelerations` on a one-body list: no pairs, hence a single zero
acceleration. -/
theorem computeAccelerations_singleton (M : JsMath K) (b : Body K) :
    computeAccelerations M [b] = [(0, 0)] := rfl

/-- Witness for C1 at a concrete one-body rational state: after one step with
`dt = 1` of a body at the origin with unit x-velocity (no gravitational pairs,
so both acceleration passes are zero), the position is `(1, 0)` and the
velocity is unchanged. -/
theorem C1_witness :
    (0 : ℚ) < 1 ∧ 0 < wState1.bodies.length
    ∧ ((velocityVerletStep qM 1 wState1).bodies.getD 0 default).r = (1, 0)
    ∧ ((velocityVerletStep qM 1 wState1).bodies.getD 0 default).v = (1, 0) := by
  have h := C1_velocity_verlet_ordering qM 1 wState1 (by norm_num) 0 (by decide)
  refine ⟨by norm_num, by decide, ?_, ?_⟩
  · rw [h.1]
    norm_num [wState1, wBody1, computeAccelerations_singleton]
  · rw [h.2]
    norm_num [wState1, wBody1, computeAccelerations_singleton]

/-- C2: for every body list, `computeAccelerations` returns one acceleration
per body (a complete set, no error conditions, no mutation — it is a pure
function of the list), and the entry for body `k` equals the sum over all
`j ≠ k` of the specified pair contribution `G * massJ * gravityScale / r2`
in the direction `d / r`, with `r2 = |d|² + 1e-12` and `r = sqrt(r2)`. -/
theorem C2_force_evaluator_complete_sum (M : JsMath K) (bodies : List (Body K)) (k : ℕ)
    (hk : k < bodies.length) :
    (computeAccelerations M bodies).length = bodies.length
    ∧ (computeAccelerations M bodies).getD k (0, 0) = specAccel M bodies k :=
  ⟨computeAccelerations_length M bodies, computeAccelerations_getD M bodies k hk⟩

/-- Witness for C2 on a concrete two-body rational instance (masses 1 and 2 at
distance 1): the loop result equals the specification sum for body 0. -/
theorem C2_witness :
    0 < ([wBody1, wBody2] : List (Body ℚ)).length
    ∧ (computeAccelerations qM [wBody1, wBody2]).length = 2
    ∧ (computeAccelerations qM [wBody1, wBody2]).getD 0 (0, 0)
        = specAccel qM [wBody1, wBody2] 0 := by
  have h := C2_force_evaluator_complete_sum qM [wBody1, wBody2] 0 (by decide)
  exact ⟨by decide, h.1, h.2⟩

/-! ### Frame effect of one integrator step -/

theorem step_bodies_map {γ : Type} (M : JsMath K) (dt : K) (s : SimState K) (f : Body K → γ)
    (hf1 : ∀ b a, f (posUpdate dt b a) = f b)
    (hf2 : ∀ b a, f (velUpdate dt b a) = f b) :
    (velocityVerletStep M dt s).bodies.map f = s.bodies.map f := by
  have hb2 : (velocityVerletStep M dt s).bodies
      = List.zipWith (velUpdate dt)
          (List.zipWith (posUpdate dt) s.bodies (computeAccelerations M s.bodies))
          ((computeAccelerations M s.bodies).zip
            (computeAccelerations M (List.zipWith (posUpdate dt) s.bodies
              (computeAccelerations M s.bodies)))) := rfl
  have la0 := computeAccelerations_length M s.bodies
  have lb1 : (List.zipWith (posUpdate dt) s.bodies (computeAccelerations M s.bodies)).length
      = s.bodies.length := by simp [List.length_zipWith, la0]
  have la1 := computeAccelerations_length M
    (List.zipWith (posUpdate dt) s.bodies (computeAccelerations M s.bodies))
  rw [hb2, List.map_zipWith]
  rw [show (fun (b : Body K) (a : (K × K) × (K × K)) => f (velUpdate dt b a))
      = fun b _ => f b from funext fun b => funext fun a => hf2 b a]
  rw [zipWith_const_left f _ _ (by simp [List.length_zip, lb1, la0, la1, lb1])]
  rw [List.map_zipWith]
  rw [show (fun (b : Body K) (a : K × K) => f (posUpdate dt b a))
      = fun b _ => f b from funext fun b => funext fun a => hf1 b a]
  exact zipWith_const_left f _ _ (le_of_eq la0.symm)

theorem velocityVerletStep_bodies_length (M : JsMath K) (dt : K) (s : SimState K) :
    (velocityVerletStep M dt s).bodies.length = s.bodies.length := by
  have := congrArg List.length
    (step_bodies_map M dt s (fun _ => ()) (fun _ _ => rfl) (fun _ _ => rfl))
  simpa using this

theorem velocityVerletStep_trails_length (M : JsMath K) (dt : K) (s : SimState K)
    (htl : s.trails.length = s.bodies.length) :
    (velocityVerletStep M dt s).trails.length = s.bodies.length := by
  have hb2 := velocityVerletStep_bodies_length M dt s
  show (List.zipWith _ s.trails (velocityVerletStep M dt s).bodies).length = _
  simp [List.length_zipWith, htl, hb2]

/-- C10: one integrator step changes only positions, velocities, trails and
the clock: every other per-body field is unchanged (so the count and order of
bodies are preserved), and the remaining `sim` fields (`running`, `dt`,
`trailLength`, `warmupDone`) are untouched. -/
theorem C10_step_mutates_only_state (M : JsMath K) (dt : K) (s : SimState K) :
    (velocityVerletStep M dt s).bodies.length = s.bodies.length
    ∧ (velocityVerletStep M dt s).bodies.map Body.name = s.bodies.map Body.name
    ∧ (velocityVerletStep M dt s).bodies.map Body.mass = s.bodies.map Body.mass
    ∧ (velocityVerletStep M dt s).bodies.map Body.color = s.bodies.map Body.color
    ∧ (velocityVerletStep M dt s).bodies.map Body.radiusKm = s.bodies.map Body.radiusKm
    ∧ (velocityVerletStep M dt s).bodies.map Body.sideSize = s.bodies.map Body.sideSize
    ∧ (velocityVerletStep M dt s).bodies.map Body.renderRadius
        = s.bodies.map Body.renderRadius
    ∧ (velocityVerletStep M dt s).bodies.map Body.hasRings = s.bodies.map Body.hasRings
    ∧ (velocityVerletStep M dt s).bodies.map Body.textureSeed
        = s.bodies.map Body.textureSeed
    ∧ (velocityVerletStep M dt s).bodies.map Body.info = s.bodies.map Body.info
    ∧ (velocityVerletStep M dt s).running = s.running
    ∧ (velocityVerletStep M dt s).dt = s.dt
    ∧ (velocityVerletStep M dt s).trailLength = s.trailLength
    ∧ (velocityVerletStep M dt s).warmupDone = s.warmupDone :=
  ⟨velocityVerletStep_bodies_length M dt s,
   step_bodies_map M dt s Body.name (fun _ _ => rfl) (fun _ _ => rfl),
   step_bodies_map M dt s Body.mass (fun _ _ => rfl) (fun _ _ => rfl),
   step_bodies_map M dt s Body.color (fun _ _ => rfl) (fun _ _ => rfl),
   step_bodies_map M dt s Body.radiusKm (fun _ _ => rfl) (fun _ _ => rfl),
   step_bodies_map M dt s Body.sideSize (fun _ _ => rfl) (fun _ _ => rfl),
   step_bodies_map M dt s Body.renderRadius (fun _ _ => rfl) (fun _ _ => rfl),
   step_bodies_map M dt s Body.hasRings (fun _ _ => rfl) (fun _ _ => rfl),
   step_bodies_map M dt s Body.textureSeed (fun _ _ => rfl) (fun _ _ => rfl),
   step_bodies_map M dt s Body.info (fun _ _ => rfl) (fun _ _ => rfl),
   rfl, rfl, rfl, rfl⟩

/-! ### Pairwise symmetry of the force evaluator -/

theorem computeAccelerations_pair (M : JsMath K) (b1 b2 : Body K) :
    computeAccelerations M [b1, b2]
      = [pairAccI M [b1, b2] 0 1, -(pairAccJ M [b1, b2] 0 1)] := by
  have h : computeAccelerations M [b1, b2]
      = accUpd M [b1, b2] (List.replicate 2 (0, 0)) (0, 1) := rfl
  rw [h]
  unfold accUpd
  show (([(0, 0), (0, 0)] : List (K × K)).set 0 _).set 1 _ = _
  simp [List.getD, zero_sub]

/-- C3 counterexample: for the concrete real bodies of masses 1 and 2 at unit
distance, the acceleration contributed to body 0 and the acceleration
contributed to body 1 have different magnitudes (ratio 2 : 1), so the claim's
"equal in magnitude" fails. -/
theorem C3_counterexample :
    magSq ((computeAccelerations (⟨Real.pi, Real.sqrt, Real.cos, Real.sin⟩ : JsMath ℝ)
        [rBody1, rBody2]).getD 0 (0, 0))
      ≠ magSq ((computeAccelerations (⟨Real.pi, Real.sqrt, Real.cos, Real.sin⟩ : JsMath ℝ)
        [rBody1, rBody2]).getD 1 (0, 0)) := by
  rw [computeAccelerations_pair]
  have hG : (0 : ℝ) < CONFIG_G Real.pi := by
    unfold CONFIG_G
    have := Real.pi_pos
    positivity
  have hr2 : (0 : ℝ) < 1 + 1e-12 := by norm_num
  have hs : (0 : ℝ) < Real.sqrt (1 + 1e-12) := Real.sqrt_pos.mpr hr2
  simp only [List.getD_cons_zero, List.getD_cons_succ, magSq, pairAccI, pairAccJ,
    rBody1, rBody2, artisticGravityScale, Prod.neg_mk, mul_one, one_mul, sub_self,
    sub_zero, mul_zero, zero_mul, add_zero, zero_add]
  set s := Real.sqrt (1 + 1e-12) with hsdef
  have hs0 : s ≠ 0 := ne_of_gt hs
  intro heq
  field_simp at heq
  nlinarith [heq, hG, mul_pos hG hG]

/-- C3 amended: for any two bodies, the pairwise accelerations are opposite in
direction but in general differ in magnitude: the mass-weighted contributions
(the forces) cancel exactly, componentwise, and the acceleration magnitudes
agree exactly when the masses agree. -/
theorem C3_amended_pairwise_opposition (M : JsMath K) (b1 b2 : Body K) :
    b1.mass * ((computeAccelerations M [b1, b2]).getD 0 (0, 0)).1
        + b2.mass * ((computeAccelerations M [b1, b2]).getD 1 (0, 0)).1 = 0
    ∧ b1.mass * ((computeAccelerations M [b1, b2]).getD 0 (0, 0)).2
        + b2.mass * ((computeAccelerations M [b1, b2]).getD 1 (0, 0)).2 = 0
    ∧ (b1.mass = b2.mass →
        (computeAccelerations M [b1, b2]).getD 1 (0, 0)
          = -((computeAccelerations M [b1, b2]).getD 0 (0, 0))) := by
  rw [computeAccelerations_pair]
  simp only [List.getD_cons_zero, List.getD_cons_succ, pairAccI, pairAccJ, Prod.neg_mk]
  refine ⟨by ring, by ring, fun hm => ?_⟩
  rw [hm]

/-- Witness for the amended C3 with equal masses: for unit-mass bodies at unit
distance the two contributions are exact negatives of one another, and the
mass-weighted components cancel. -/
theorem C3_witness :
    wBody1.mass = wBody3.mass
    ∧ wBody1.mass * ((computeAccelerations qM [wBody1, wBody3]).getD 0 (0, 0)).1
        + wBody3.mass * ((computeAccelerations qM [wBody1, wBody3]).getD 1 (0, 0)).1 = 0
    ∧ (computeAccelerations qM [wBody1, wBody3]).getD 1 (0, 0)
        = -((computeAccelerations qM [wBody1, wBody3]).getD 0 (0, 0)) := by
  have h := C3_amended_pairwise_opposition qM wBody1 wBody3
  exact ⟨rfl, h.1, h.2.2 rfl⟩

/-! ### Trail tracker lemmas -/

theorem trailPush_length_le (cap : ℕ) (t : List (K × K)) (p : K × K)
    (h : t.length ≤ cap) : (trailPush cap t p).length ≤ cap := by
  unfold trailPush
  by_cases hc : cap < (t ++ [p]).length
  · rw [if_pos hc]
    simp only [List.length_tail, List.length_append, List.length_singleton] at hc ⊢
    omega
  · rw [if_neg hc]
    simp only [List.length_append, List.length_singleton] at hc ⊢
    omega

theorem trailPush_suffix (cap : ℕ) (t : List (K × K)) (p : K × K) :
    (trailPush cap t p).IsSuffix (t ++ [p]) := by
  unfold trailPush
  by_cases hc : cap < (t ++ [p]).length
  · rw [if_pos hc]
    exact List.tail_suffix _
  · rw [if_neg hc]

theorem suffix_append_right {α : Type} {s l : List α} (t : List α) (h : s <:+ l) :
    s ++ t <:+ l ++ t := by
  obtain ⟨u, rfl⟩ := h
  exact ⟨u, by simp⟩

theorem step_trails_getD (M : JsMath K) (dt : K) (s : SimState K)
    (htl : s.trails.length = s.bodies.length) (i : ℕ) (hi : i < s.bodies.length) :
    (velocityVerletStep M dt s).trails.getD i []
      = trailPush s.trailLength (s.trails.getD i [])
          (((velocityVerletStep M dt s).bodies.getD i default).r) := by
  have hbl := velocityVerletStep_bodies_length M dt s
  have hlen : (velocityVerletStep M dt s).trails.length = s.bodies.length :=
    velocityVerletStep_trails_length M dt s htl
  have hi1 : i < (velocityVerletStep M dt s).trails.length := by omega
  have hi2 : i < s.trails.length := by omega
  have hi3 : i < (velocityVerletStep M dt s).bodies.length := by omega
  rw [List.getD_eq_getElem _ _ hi1, List.getD_eq_getElem _ _ hi2,
      List.getD_eq_getElem _ _ hi3]
  have htr : (velocityVerletStep M dt s).trails
      = List.zipWith (fun t (b : Body K) => trailPush s.trailLength t b.r) s.trails
          (velocityVerletStep M dt s).bodies := rfl
  conv in (velocityVerletStep M dt s).trails => rw [htr]
  rw [List.getElem_zipWith]

theorem iter_state_lengths (M : JsMath K) (dt : K) (s : SimState K)
    (htl : s.trails.length = s.bodies.length) (k : ℕ) :
    ((velocityVerletStep M dt)^[k] s).bodies.length = s.bodies.length
    ∧ ((velocityVerletStep M dt)^[k] s).trails.length = s.bodies.length
    ∧ ((velocityVerletStep M dt)^[k] s).trailLength = s.trailLength := by
  induction k with
  | zero => exact ⟨rfl, htl, rfl⟩
  | succ k ih =>
    obtain ⟨h1, h2, h3⟩ := ih
    rw [Function.iterate_succ_apply']
    refine ⟨?_, ?_, h3⟩
    · rw [velocityVerletStep_bodies_length]
      exact h1
    · rw [velocityVerletStep_trails_length _ _ _ (by omega)]
      exact h1

/-- C6: provided trails and bodies are aligned and each trail starts within
the cap, then after any sequence of integrator steps (arbitrary sub-step
sizes) every trail still has length at most `sim.trailLength`, and the
surviving entries are a suffix of the full insertion history (initial trail
followed by the recorded post-step positions in simulation order) — eviction
is oldest-first and insertion order is preserved. -/
theorem C6_trail_bounded_fifo (M : JsMath K) (ds : List K) (s : SimState K)
    (htl : s.trails.length = s.bodies.length)
    (hcap : ∀ j : ℕ, (s.trails.getD j []).length ≤ s.trailLength) (i : ℕ) :
    ((applySteps M ds s).trails.getD i []).length ≤ s.trailLength
    ∧ ((applySteps M ds s).trails.getD i []).IsSuffix
        ((s.trails.getD i []) ++ trailHistory M ds s i) := by
  induction ds generalizing s with
  | nil =>
    refine ⟨hcap i, ?_⟩
    show (s.trails.getD i []).IsSuffix ((s.trails.getD i []) ++ trailHistory M [] s i)
    rw [show trailHistory M [] s i = [] from rfl, List.append_nil]
  | cons d rest ih =>
    have hstep : applySteps M (d :: rest) s
        = applySteps M rest (velocityVerletStep M d s) := rfl
    have htl1 : (velocityVerletStep M d s).trails.length
        = (velocityVerletStep M d s).bodies.length := by
      rw [velocityVerletStep_trails_length M d s htl, velocityVerletStep_bodies_length]
    have hcap1 : ∀ j : ℕ,
        ((velocityVerletStep M d s).trails.getD j []).length ≤ s.trailLength := by
      intro j
      by_cases hj : j < s.bodies.length
      · rw [step_trails_getD M d s htl j hj]
        exact trailPush_length_le _ _ _ (hcap j)
      · rw [List.getD_eq_default _ _
          (by rw [velocityVerletStep_trails_length M d s htl]; omega)]
        simp
    have h1 : ((velocityVerletStep M d s).trails.getD i []).IsSuffix
        ((s.trails.getD i [])
          ++ [((velocityVerletStep M d s).bodies.getD i default).r]) := by
      by_cases hj : i < s.bodies.length
      · rw [step_trails_getD M d s htl i hj]
        exact trailPush_suffix _ _ _
      · rw [List.getD_eq_default _ _
          (by rw [velocityVerletStep_trails_length M d s htl]; omega)]
        exact List.nil_suffix
    have hrest := ih (velocityVerletStep M d s) htl1 hcap1
    rw [hstep]
    refine ⟨hrest.1, ?_⟩
    have h2 := suffix_append_right
      (trailHistory M rest (velocityVerletStep M d s) i) h1
    have h3 : ((s.trails.getD i [])
          ++ [((velocityVerletStep M d s).bodies.getD i default).r])
        ++ trailHistory M rest (velocityVerletStep M d s) i
        = (s.trails.getD i []) ++ trailHistory M (d :: rest) s i := by
      rw [List.append_assoc]
      rfl
    rw [← h3]
    exact hrest.2.trans h2

/-- Witness for C6 at a concrete one-body state with trail cap 2 after three
unit steps: the surviving trail respects the cap and is a suffix of the
three-entry insertion history. -/
theorem C6_witness :
    wState1.trails.length = wState1.bodies.length
    ∧ ((applySteps qM [1, 1, 1] wState1).trails.getD 0 []).length ≤ wState1.trailLength
    ∧ ((applySteps qM [1, 1, 1] wState1).trails.getD 0 []).IsSuffix
        ((wState1.trails.getD 0 []) ++ trailHistory qM [1, 1, 1] wState1 0) := by
  have h := C6_trail_bounded_fifo qM [1, 1, 1] wState1 rfl
    (by intro j; cases j <;> simp [wState1]) 0
  exact ⟨rfl, h.1, h.2⟩

/-! ### Substep controller -/

/-- C4: with the simulation running and a positive requested timestep, one
frame's physics update computes
`subCount = clamp(ceil(requestedDt / 0.9), 1, maxSubSteps)` with
`maxSubSteps = 6` and `subDt = requestedDt / subCount`, and invokes the
integrator exactly `subCount` times with `subDt`, in sequence; in particular
`requestedDt = 5.4` yields `subCount = 6` and `subDt = 0.9` exactly. -/
theorem C4_substep_controller (M : JsMath K) (s : SimState K) (hrun : s.running = true)
    (hdt : 0 < s.dt) :
    subCount s.dt = max 1 (min 6 ⌈s.dt / 0.9⌉)
    ∧ renderFramePhysics M s
        = (velocityVerletStep M (s.dt / ((subCount s.dt : ℤ) : K)))^[(subCount s.dt).toNat] s
    ∧ (s.dt = 5.4 → subCount s.dt = 6 ∧ s.dt / ((subCount s.dt : ℤ) : K) = 0.9) := by
  refine ⟨rfl, ?_, ?_⟩
  · unfold renderFramePhysics
    rw [if_pos hrun]
  · intro h54
    have hc : ⌈s.dt / (0.9 : K)⌉ = 6 := by
      rw [h54, show (5.4 : K) / 0.9 = 6 from by norm_num]
      norm_num
    have h6 : subCount s.dt = 6 := by
      unfold subCount maxSubSteps
      rw [hc]
      decide
    refine ⟨h6, ?_⟩
    rw [h6, h54]
    norm_num

/-- Witness for C4 at the concrete running state with `dt = 5.4`: the substep
count is 6, the substep size is exactly 0.9, and the frame update is the
six-fold iterate of the integrator at that substep size. -/
theorem C4_witness :
    wStateFast.running = true ∧ (0 : ℚ) < wStateFast.dt
    ∧ subCount wStateFast.dt = 6
    ∧ wStateFast.dt / ((subCount wStateFast.dt : ℤ) : ℚ) = 0.9
    ∧ renderFramePhysics qM wStateFast
        = (velocityVerletStep qM
            (wStateFast.dt / ((subCount wStateFast.dt : ℤ) : ℚ)))^[(subCount
              wStateFast.dt).toNat] wStateFast := by
  have h := C4_substep_controller qM wStateFast rfl (by norm_num [wStateFast])
  have h54 := h.2.2 rfl
  exact ⟨rfl, by norm_num [wStateFast], h54.1, h54.2, h.2.1⟩

/-! ### Non-positive timestep handling -/

theorem subCount_nonpos (dt : K) (hdt : dt ≤ 0) : subCount dt = 1 := by
  have hc : ⌈dt / (0.9 : K)⌉ ≤ 0 := by
    refine Int.ceil_le.mpr ?_
    push_cast
    apply div_nonpos_of_nonpos_of_nonneg hdt
    norm_num
  unfold subCount maxSubSteps
  omega

/-- C7 counterexample: at the concrete running state with requested timestep
`0` the frame update is not rejected — it mutates the trails (every body gets
a new trail point), so "never mutates simulation state on such a call" fails
on the code. -/
theorem C7_counterexample :
    wStateZeroDt.dt ≤ 0 ∧ wStateZeroDt.running = true
    ∧ (renderFramePhysics qM wStateZeroDt).trails ≠ wStateZeroDt.trails := by
  refine ⟨le_refl 0, rfl, ?_⟩
  have hphys : renderFramePhysics qM wStateZeroDt
      = velocityVerletStep qM wStateZeroDt.dt wStateZeroDt := by
    unfold renderFramePhysics
    rw [if_pos (show wStateZeroDt.running = true from rfl)]
    show (velocityVerletStep qM
        (wStateZeroDt.dt / ((subCount wStateZeroDt.dt : ℤ) : ℚ)))^[(subCount
          wStateZeroDt.dt).toNat] wStateZeroDt = _
    rw [subCount_nonpos wStateZeroDt.dt (le_refl 0)]
    norm_num [Function.iterate_one]
  rw [hphys]
  intro h
  have h0 := congrArg (fun l => (l.getD 0 ([] : List (ℚ × ℚ))).length) h
  simp only at h0
  rw [step_trails_getD qM _ wStateZeroDt rfl 0 (by decide)] at h0
  simp [trailPush, wStateZeroDt] at h0

/-- C7 amended: a non-positive requested timestep is *not* rejected at any
boundary: with the simulation running, the frame update clamps the substep
count to 1 and invokes the integrator once with the non-positive timestep
itself, advancing the clock by it (and, per the counterexample, appending
trail points) — state is mutated, not preserved. -/
theorem C7_amended_nonpos_dt_integrates (M : JsMath K) (s : SimState K)
    (hrun : s.running = true) (hdt : s.dt ≤ 0) :
    subCount s.dt = 1
    ∧ renderFramePhysics M s = velocityVerletStep M s.dt s
    ∧ (renderFramePhysics M s).timeDays = s.timeDays + s.dt := by
  have h1 : subCount s.dt = 1 := subCount_nonpos s.dt hdt
  have h2 : renderFramePhysics M s = velocityVerletStep M s.dt s := by
    unfold renderFramePhysics
    rw [if_pos hrun]
    show (velocityVerletStep M
        (s.dt / ((subCount s.dt : ℤ) : K)))^[(subCount s.dt).toNat] s
      = velocityVerletStep M s.dt s
    rw [h1]
    norm_num [Function.iterate_one]
  exact ⟨h1, h2, by rw [h2]; rfl⟩

/-- Witness for the amended C7 at the concrete zero-timestep state. -/
theorem C7_witness :
    wStateZeroDt.running = true ∧ wStateZeroDt.dt ≤ 0
    ∧ subCount wStateZeroDt.dt = 1
    ∧ renderFramePhysics qM wStateZeroDt = velocityVerletStep qM wStateZeroDt.dt wStateZeroDt
    ∧ (renderFramePhysics qM wStateZeroDt).timeDays = wStateZeroDt.timeDays
        + wStateZeroDt.dt := by
  have h := C7_amended_nonpos_dt_integrates qM wStateZeroDt rfl (le_refl 0)
  exact ⟨rfl, le_refl 0, h.1, h.2.1, h.2.2⟩

/-! ### Simulation clock -/

theorem velocityVerletStep_timeDays (M : JsMath K) (dt : K) (s : SimState K) :
    (velocityVerletStep M dt s).timeDays = s.timeDays + dt := rfl

/-- C8 counterexample: a negative requested timestep is applied as-is while
the simulation is running (see C7), and the clock *decreases*: from the
concrete running state with `dt = -1` and clock 5 the frame update moves the
clock to 4, refuting monotone non-decrease of `elapsedDays`. -/
theorem C8_counterexample :
    wStateNegDt.running = true
    ∧ (renderFramePhysics qM wStateNegDt).timeDays < wStateNegDt.timeDays := by
  refine ⟨rfl, ?_⟩
  have hphys : renderFramePhysics qM wStateNegDt
      = velocityVerletStep qM wStateNegDt.dt wStateNegDt := by
    unfold renderFramePhysics
    rw [if_pos (show wStateNegDt.running = true from rfl)]
    show (velocityVerletStep qM
        (wStateNegDt.dt / ((subCount wStateNegDt.dt : ℤ) : ℚ)))^[(subCount
          wStateNegDt.dt).toNat] wStateNegDt = _
    rw [subCount_nonpos wStateNegDt.dt (by norm_num [wStateNegDt])]
    norm_num [Function.iterate_one]
  rw [hphys, velocityVerletStep_timeDays]
  norm_num [wStateNegDt]

/-- C8 amended: the clock changes by exactly the sum of the sub-step sizes
applied to the integrator since the last reset (and both `warmupSimulation`
and a reset zero it); it is monotonically non-decreasing provided every
applied sub-step size is nonnegative — a negative requested timestep (which
the code does not reject, see C7) decreases it. -/
theorem C8_amended_clock_sum (M : JsMath K) (ds : List K) (s : SimState K) :
    (applySteps M ds s).timeDays = s.timeDays + ds.sum
    ∧ ((∀ d ∈ ds, 0 ≤ d) → s.timeDays ≤ (applySteps M ds s).timeDays)
    ∧ (warmupSimulation M s).timeDays = 0 := by
  have hsum : ∀ (l : List K) (u : SimState K),
      (applySteps M l u).timeDays = u.timeDays + l.sum := by
    intro l
    induction l with
    | nil => intro u; simp [applySteps]
    | cons d l ih =>
      intro u
      show (applySteps M l (velocityVerletStep M d u)).timeDays = _
      rw [ih (velocityVerletStep M d u), velocityVerletStep_timeDays]
      simp [add_assoc]
  refine ⟨hsum ds s, fun hnn => ?_, rfl⟩
  rw [hsum ds s]
  have : 0 ≤ ds.sum := List.sum_nonneg hnn
  linarith

/-- Witness for the amended C8: two unit steps advance the clock by exactly
their sum, and the clock does not decrease. -/
theorem C8_witness :
    (0 : ℚ) ≤ 1 ∧ (0 : ℚ) ≤ 2
    ∧ (applySteps qM [1, 2] wState1).timeDays = wState1.timeDays + 3
    ∧ wState1.timeDays ≤ (applySteps qM [1, 2] wState1).timeDays := by
  have h := C8_amended_clock_sum qM [1, 2] wState1
  refine ⟨by norm_num, by norm_num, ?_, h.2.1 (by norm_num)⟩
  rw [h.1]
  norm_num

/-! ### Energy diagnostic -/

theorem foldl_pair_add (l : List ℕ) (f g : ℕ → K) (acc : K × K) :
    l.foldl (fun (a : K × K) x => (a.1 + f x, a.2 + g x)) acc
      = (acc.1 + (l.map f).sum, acc.2 + (l.map g).sum) := by
  induction l generalizing acc with
  | nil => simp
  | cons x xs ih => simp [ih, add_assoc]

theorem computeEnergy_eq (M : JsMath K) (bodies : List (Body K)) :
    computeEnergy M bodies
      = (specEnergyK bodies, codeEnergyU M bodies,
         specEnergyK bodies + codeEnergyU M bodies) := by
  unfold computeEnergy
  have h1 : (List.range bodies.length).foldl (fun (acc : K × K) i =>
        let bi := bodies.getD i default
        let v2 := bi.v.1 * bi.v.1 + bi.v.2 * bi.v.2
        let k1 := acc.1 + 0.5 * bi.mass * v2
        let u1 := ((List.range bodies.length).filter (fun j => i < j)).foldl (fun u j =>
          let bj := bodies.getD j default
          let dx := bi.r.1 - bj.r.1
          let dy := bi.r.2 - bj.r.2
          let d := M.sqrtf (dx * dx + dy * dy) + 1e-12
          u - CONFIG_G M.piv * bi.mass * bj.mass / d) acc.2
        (k1, u1)) (0, 0)
      = (List.range bodies.length).foldl (fun (a : K × K) i =>
        (a.1 + (fun i : ℕ =>
            let bi := bodies.getD i default
            0.5 * bi.mass * (bi.v.1 * bi.v.1 + bi.v.2 * bi.v.2)) i,
         a.2 + (fun i : ℕ =>
            (((List.range bodies.length).filter (fun j => i < j)).map (fun j =>
              let bi := bodies.getD i default
              let bj := bodies.getD j default
              let dx := bi.r.1 - bj.r.1
              let dy := bi.r.2 - bj.r.2
              let d := M.sqrtf (dx * dx + dy * dy) + 1e-12; -(CONFIG_G M.piv * bi.mass * bj.mass / d))).sum) i))
        (0, 0) := by
    refine List.foldl_ext _ _ (0, 0) (fun a i _ => ?_)
    refine Prod.ext rfl ?_
    show ((List.range bodies.length).filter (fun j => i < j)).foldl (fun u j =>
        u - CONFIG_G M.piv * (bodies.getD i default).mass
          * (bodies.getD j default).mass
          / (M.sqrtf (((bodies.getD i default).r.1 - (bodies.getD j default).r.1)
              * ((bodies.getD i default).r.1 - (bodies.getD j default).r.1)
            + ((bodies.getD i default).r.2 - (bodies.getD j default).r.2)
              * ((bodies.getD i default).r.2 - (bodies.getD j default).r.2)) + 1e-12))
        a.2 = _
    rw [show (fun (u : K) j =>
        u - CONFIG_G M.piv * (bodies.getD i default).mass
          * (bodies.getD j default).mass
          / (M.sqrtf (((bodies.getD i default).r.1 - (bodies.getD j default).r.1)
              * ((bodies.getD i default).r.1 - (bodies.getD j default).r.1)
            + ((bodies.getD i default).r.2 - (bodies.getD j default).r.2)
              * ((bodies.getD i default).r.2 - (bodies.getD j default).r.2)) + 1e-12))
      = fun (u : K) j =>
        u + (-(CONFIG_G M.piv * (bodies.getD i default).mass
          * (bodies.getD j default).mass
          / (M.sqrtf (((bodies.getD i default).r.1 - (bodies.getD j default).r.1)
              * ((bodies.getD i default).r.1 - (bodies.getD j default).r.1)
            + ((bodies.getD i default).r.2 - (bodies.getD j default).r.2)
              * ((bodies.getD i default).r.2 - (bodies.getD j default).r.2)) + 1e-12)))
      from funext fun u => funext fun j => sub_eq_add_neg _ _]
    exact foldl_add_sum _ _ _
  have h2 : (let n := bodies.length;
      let KU := (List.range n).foldl (fun (acc : K × K) i =>
        let bi := bodies.getD i default
        let v2 := bi.v.1 * bi.v.1 + bi.v.2 * bi.v.2
        let k1 := acc.1 + 0.5 * bi.mass * v2
        let u1 := ((List.range n).filter (fun j => i < j)).foldl (fun u j =>
          let bj := bodies.getD j default
          let dx := bi.r.1 - bj.r.1
          let dy := bi.r.2 - bj.r.2
          let d := M.sqrtf (dx * dx + dy * dy) + 1e-12
          u - CONFIG_G M.piv * bi.mass * bj.mass / d) acc.2
        (k1, u1)) (0, 0)
      ((KU.1, KU.2, KU.1 + KU.2) : K × K × K))
      = (fun p : K × K => ((p.1, p.2, p.1 + p.2) : K × K × K))
          ((List.range bodies.length).foldl (fun (acc : K × K) i =>
            let bi := bodies.getD i default
            let v2 := bi.v.1 * bi.v.1 + bi.v.2 * bi.v.2
            let k1 := acc.1 + 0.5 * bi.mass * v2
            let u1 := ((List.range bodies.length).filter (fun j => i < j)).foldl (fun u j =>
              let bj := bodies.getD j default
              let dx := bi.r.1 - bj.r.1
              let dy := bi.r.2 - bj.r.2
              let d := M.sqrtf (dx * dx + dy * dy) + 1e-12
              u - CONFIG_G M.piv * bi.mass * bj.mass / d) acc.2
            (k1, u1)) (0, 0)) := rfl
  rw [h2, h1, foldl_pair_add]
  show ((0 : K) + specEnergyK bodies, (0 : K) + codeEnergyU M bodies,
      ((0 : K) + specEnergyK bodies) + ((0 : K) + codeEnergyU M bodies)) = _
  rw [zero_add, zero_add]

/-- C9 amended: `computeEnergy` returns exactly
`K = Σ 0.5·mass·|v|²`, `U = Σ_{i<j} −G·massI·massJ / (distance(i,j) + 1e-12)`
and `total = K + U` — a pure function of the body list (nothing is mutated);
the only deviation from the claim is the softening term `1e-12` added to the
distance in each denominator. -/
theorem C9_amended_energy_diagnostic (M : JsMath K) (bodies : List (Body K)) :
    computeEnergy M bodies
      = (specEnergyK bodies, codeEnergyU M bodies,
         specEnergyK bodies + codeEnergyU M bodies) :=
  computeEnergy_eq M bodies

theorem codeEnergyU_pair (M : JsMath K) (b1 b2 : Body K) :
    codeEnergyU M [b1, b2]
      = -(CONFIG_G M.piv * b1.mass * b2.mass
          / (M.sqrtf ((b1.r.1 - b2.r.1) * (b1.r.1 - b2.r.1)
              + (b1.r.2 - b2.r.2) * (b1.r.2 - b2.r.2)) + 1e-12)) := by
  show ((([-(CONFIG_G M.piv * ([b1, b2].getD 0 default).mass
      * ([b1, b2].getD 1 default).mass
      / (M.sqrtf ((([b1, b2].getD 0 default).r.1 - ([b1, b2].getD 1 default).r.1)
            * (([b1, b2].getD 0 default).r.1 - ([b1, b2].getD 1 default).r.1)
          + (([b1, b2].getD 0 default).r.2 - ([b1, b2].getD 1 default).r.2)
            * (([b1, b2].getD 0 default).r.2 - ([b1, b2].getD 1 default).r.2))
          + 1e-12))].sum)
      + (([] : List K).sum + 0)) : K) = _
  simp

theorem claimEnergyU_pair (M : JsMath K) (b1 b2 : Body K) :
    claimEnergyU M [b1, b2]
      = -(CONFIG_G M.piv * b1.mass * b2.mass
          / M.sqrtf ((b1.r.1 - b2.r.1) * (b1.r.1 - b2.r.1)
              + (b1.r.2 - b2.r.2) * (b1.r.2 - b2.r.2))) := by
  show ((([-(CONFIG_G M.piv * ([b1, b2].getD 0 default).mass
      * ([b1, b2].getD 1 default).mass
      / M.sqrtf ((([b1, b2].getD 0 default).r.1 - ([b1, b2].getD 1 default).r.1)
            * (([b1, b2].getD 0 default).r.1 - ([b1, b2].getD 1 default).r.1)
          + (([b1, b2].getD 0 default).r.2 - ([b1, b2].getD 1 default).r.2)
            * (([b1, b2].getD 0 default).r.2 - ([b1, b2].getD 1 default).r.2)))].sum)
      + (([] : List K).sum + 0)) : K) = _
  simp

/-- C9 counterexample: for the concrete real two-body state at unit distance,
the potential-energy component actually returned by `computeEnergy` differs
from the claim's `Σ_{i<j} −G·massI·massJ / distance(i,j)`: the code divides by
`distance + 1e-12`, not by `distance`. -/
theorem C9_counterexample :
    (computeEnergy (⟨Real.pi, Real.sqrt, Real.cos, Real.sin⟩ : JsMath ℝ)
        [rBody1, rBody2]).2.1
      ≠ claimEnergyU (⟨Real.pi, Real.sqrt, Real.cos, Real.sin⟩ : JsMath ℝ)
        [rBody1, rBody2] := by
  rw [computeEnergy_eq]
  show codeEnergyU _ [rBody1, rBody2] ≠ claimEnergyU _ [rBody1, rBody2]
  have hG : (0 : ℝ) < CONFIG_G Real.pi := by
    unfold CONFIG_G
    have := Real.pi_pos
    positivity
  rw [codeEnergyU_pair, claimEnergyU_pair]
  simp only [rBody1, rBody2]
  norm_num [Real.sqrt_one]
  intro heq
  rw [div_eq_iff (by norm_num)] at heq
  nlinarith [hG, heq]

/-! ### Momentum zeroing at setup -/

theorem totalMomentum_zeroMomentum (b0 : Body K) (rest : List (Body K))
    (hm : b0.mass ≠ 0) (hv : b0.v = (0, 0)) :
    totalMomentum (zeroMomentum (b0 :: rest)) = (0, 0) := by
  have hv1 : b0.v.1 = 0 := by rw [hv]
  have hv2 : b0.v.2 = 0 := by rw [hv]
  unfold zeroMomentum totalMomentum
  simp only [List.map_cons, List.sum_cons]
  refine Prod.ext ?_ ?_
  · show b0.mass * (-(b0.mass * b0.v.1 + (rest.map (fun b => b.mass * b.v.1)).sum)
        / b0.mass) + (rest.map (fun b => b.mass * b.v.1)).sum = 0
    rw [hv1]
    field_simp
    ring
  · show b0.mass * (-(b0.mass * b0.v.2 + (rest.map (fun b => b.mass * b.v.2)).sum)
        / b0.mass) + (rest.map (fun b => b.mass * b.v.2)).sum = 0
    rw [hv2]
    field_simp
    ring

/-- C5: immediately after the default registry is built (Sun, the eight
planets, and the 120-asteroid synthetic ring, for *any* outcome of the random
draws), the total system momentum `Σ mass·velocity` is exactly `(0, 0)`,
achieved by the final adjustment of the Sun's velocity. -/
theorem C5_setup_total_momentum_zero (M : JsMath K) (sunSeed : K)
    (prnd pseed arnd1 arnd2 arnd3 aseed : ℕ → K) :
    totalMomentum (setupDefaultBodies M sunSeed prnd pseed arnd1 arnd2 arnd3 aseed)
      = (0, 0) :=
  totalMomentum_zeroMomentum _ _ (by norm_num [sunBody]) rfl

end Solar
